import Mathlib

/-!
Shallow embedding of the NSEStockTracker core (database.py, scheduler.py,
data_fetcher.py) and verification of its specification.

Modelling conventions:
* Timestamps are naive instants counted in minutes (`Nat`); the calendar
  date of an instant is `t / 1440` and its time-of-day is `t % 1440`.
  ISO-format timestamp strings compare lexicographically exactly as the
  underlying instants compare, so SQL `ORDER BY timestamp`, `timestamp < ?`
  and `DATE(timestamp)` become order, comparison and `/ 1440` on `Nat`.
* Prices are exact rationals (`ℚ`); Python's `round(x, 2)` is modelled as
  round-half-to-even at two decimal places and Python's `int(x)` as
  truncation toward zero.
* The SQLite table `stock_candles` is a list of rows; `INSERT OR IGNORE`
  under `UNIQUE(symbol, timestamp)` appends only when no row with the same
  key is present and reports via `rowcount` whether a row was written.
-/

namespace StockTracker

/-- Python `round` to the nearest integer, ties to even (banker's rounding),
on an exact rational. -/
def roundHalfEven (q : ℚ) : ℤ :=
  let f : ℤ := ⌊q⌋
  let r : ℚ := q - (f : ℚ)
  if r < 1/2 then f
  else if 1/2 < r then f + 1
  else if f % 2 = 0 then f else f + 1

/-- Python `round(x, 2)`: round to two decimal places, ties to even. -/
def pyRound2 (q : ℚ) : ℚ := (roundHalfEven (q * 100) : ℚ) / 100

/-- Python `int(x)` on a real value: truncation toward zero. -/
def pyInt (q : ℚ) : ℤ := if 0 ≤ q then ⌊q⌋ else ⌈q⌉

/-- Model of `models.StockCandle`: one OHLCV sample. -/
structure Candle where
  symbol : String
  timestamp : Nat
  open_price : ℚ
  high_price : ℚ
  low_price : ℚ
  close_price : ℚ
  volume : Nat
  deriving Repr, DecidableEq

/-- One row of the `stock_candles` table (the stored sample): the candle
fields as persisted by `save_candle` plus the derived columns. The
`volume` column holds the value the code binds (`vol`, the scaled volume). -/
structure Row where
  symbol : String
  timestamp : Nat
  open_price : ℚ
  high_price : ℚ
  low_price : ℚ
  close_price : ℚ
  volume : Nat
  avg_price : ℤ
  money_flow : ℤ
  net_mf : ℤ
  deriving Repr, DecidableEq

/-- The `stock_candles` table. -/
abbrev Store := List Row

/-- Model of SQL `DATE(timestamp)`: the calendar date of an instant. -/
def dayOf (t : Nat) : Nat := t / 1440

/-- The rows selected by `WHERE symbol = ? AND DATE(timestamp) = ?`. -/
def sameDayRows (store : Store) (sym : String) (d : Nat) : List Row :=
  store.filter (fun r => r.symbol = sym ∧ dayOf r.timestamp = d)

/-- The later of two rows by timestamp (the earlier argument wins ties;
ties cannot arise among rows of one symbol, by the uniqueness constraint). -/
def maxRow (b r : Row) : Row := if b.timestamp < r.timestamp then r else b

/-- Model of SQL `ORDER BY timestamp DESC LIMIT 1`: the row with the greatest
timestamp, if any. -/
def latestRow : List Row → Option Row
  | [] => none
  | r :: rs => some (rs.foldl maxRow r)

/-- Model of `StockDatabase._calculate_net_mf` (database.py lines 126-183): Net MF
from the day-entry count and, when prior same-day rows exist, the most
recent same-day row's `avg_price` and `net_mf`. -/
def calculate_net_mf (store : Store) (candle : Candle)
    (avg_price : ℤ) (money_flow : ℤ) : ℤ :=
  let candle_date := dayOf candle.timestamp
  let day_entry_count := (sameDayRows store candle.symbol candle_date).length
  if day_entry_count = 0 then
    if candle.close_price < candle.open_price then -money_flow else money_flow
  else
    match latestRow (sameDayRows store candle.symbol candle_date) with
    | some prev =>
        if avg_price > prev.avg_price then money_flow + prev.net_mf
        else if avg_price < prev.avg_price then -money_flow + prev.net_mf
        else if prev.net_mf ≥ 0 then money_flow + prev.net_mf
        else -money_flow + prev.net_mf
    | none => money_flow

/-- Whether a row with the key `(symbol, timestamp)` is already stored
(the `UNIQUE(symbol, timestamp)` constraint consulted by
`INSERT OR IGNORE`). -/
def hasKey (store : Store) (sym : String) (t : Nat) : Bool :=
  store.any (fun r => r.symbol = sym ∧ r.timestamp = t)

/-- The scaled volume `vol = int(candle.volume/1000)` of save_candle. -/
def scaledVol (c : Candle) : Nat := c.volume / 1000

/-- The value `avg_price = int(round((high + low) / 2, 2))` of save_candle. -/
def avgPriceOf (c : Candle) : ℤ :=
  pyInt (pyRound2 ((c.high_price + c.low_price) / 2))

/-- The value `money_flow = int(round((avg_price * vol) / 1000, 2))` of save_candle. -/
def moneyFlowOf (c : Candle) : ℤ :=
  pyInt (pyRound2 (((avgPriceOf c : ℚ) * (scaledVol c : ℚ)) / 1000))

/-- The row `save_candle` binds into its INSERT statement.
`net_mf = int(round(net_mf, 2))` is the identity on the integer result of
`_calculate_net_mf`. -/
def rowOf (store : Store) (c : Candle) : Row :=
  { symbol := c.symbol
    timestamp := c.timestamp
    open_price := c.open_price
    high_price := c.high_price
    low_price := c.low_price
    close_price := c.close_price
    volume := scaledVol c
    avg_price := avgPriceOf c
    money_flow := moneyFlowOf c
    net_mf := calculate_net_mf store c (avgPriceOf c) (moneyFlowOf c) }

/-- Model of `StockDatabase.save_candle` (database.py lines 70-124): derive the
scaled volume, avg price, money flow and net MF, then `INSERT OR IGNORE`;
returns whether a new row was written, with the resulting table. -/
def save_candle (store : Store) (c : Candle) : Bool × Store :=
  if hasKey store c.symbol c.timestamp then (false, store)
  else (true, store ++ [rowOf store c])

/-- Model of `StockDatabase.get_latest_candle` (database.py lines 185-219): the
stored row for the symbol with the greatest timestamp, if any. -/
def get_latest_candle (store : Store) (sym : String) : Option Row :=
  latestRow (store.filter (fun r => r.symbol = sym))

/-- Model of `StockDatabase.cleanup_old_data` (database.py lines 283-307):
`DELETE FROM stock_candles WHERE timestamp < cutoff`; returns the number
of rows deleted and the remaining table. -/
def cleanup_old_data (store : Store) (cutoff : Nat) : Nat × Store :=
  ((store.filter (fun r => r.timestamp < cutoff)).length,
   store.filter (fun r => ¬ r.timestamp < cutoff))

/-! ## Market calendar (data_fetcher.py) -/

/-- The set `Config.TRADING_DAYS` (Monday = 0 … Friday = 4). -/
def tradingDays : List Nat := [0, 1, 2, 3, 4]

/-- The instant `Config.MARKET_OPEN_TIME` (09:15) in minutes of day. -/
def marketOpenTime : Nat := 9 * 60 + 15

/-- The instant `Config.MARKET_CLOSE_TIME` (15:30) in minutes of day. -/
def marketCloseTime : Nat := 15 * 60 + 30

/-- The weekday of an instant: day numbers are aligned so that day `d` has
weekday `d % 7`, with weekday 0 = Monday as in Python's `date.weekday()`. -/
def weekdayOf (t : Nat) : Nat := dayOf t % 7

/-- The time-of-day of an instant, in minutes. -/
def timeOf (t : Nat) : Nat := t % 1440

/-- Model of `models.MarketStatus`. -/
structure MarketStatus where
  is_open : Bool
  is_trading_day : Bool
  current_time : Nat
  next_open : Nat
  next_close : Option Nat
  deriving Repr, DecidableEq

/-- The `while next_date.weekday() not in TRADING_DAYS: next_date += 1`
loop of `_calculate_next_market_open`, with explicit fuel: with the
Monday-to-Friday trading set the loop advances at most two days, so fuel 7
is never exhausted. -/
def nextTradingDate : Nat → Nat → Nat
  | 0, d => d
  | n + 1, d => if tradingDays.contains (d % 7) then d else nextTradingDate n (d + 1)

/-- Model of `StockDataFetcher._calculate_next_market_open` (data_fetcher.py lines
187-205). -/
def calculate_next_market_open (now : Nat) : Nat :=
  let d0 := dayOf now + (if marketCloseTime < timeOf now then 1 else 0)
  nextTradingDate 7 d0 * 1440 + marketOpenTime

/-- Model of `StockDataFetcher._calculate_next_market_close` (data_fetcher.py lines
207-213): today's date combined with the close time. -/
def calculate_next_market_close (now : Nat) : Nat :=
  dayOf now * 1440 + marketCloseTime

/-- Model of `StockDataFetcher.get_market_status` (data_fetcher.py lines 152-185):
total on every instant, no error conditions. -/
def get_market_status (now : Nat) : MarketStatus :=
  let is_trading_day := tradingDays.contains (weekdayOf now)
  let isOpen := is_trading_day
      && decide (marketOpenTime ≤ timeOf now)
      && decide (timeOf now ≤ marketCloseTime)
  { is_open := isOpen
    is_trading_day := is_trading_day
    current_time := now
    next_open := calculate_next_market_open now
    next_close := if isOpen then some (calculate_next_market_close now) else none }

/-! ## Collection scheduler (scheduler.py) -/

/-- Model of `models.FetchResult`: outcome of one fetch. In the source a successful
fetch always carries a candle in `data`. -/
structure FetchResult where
  success : Bool
  symbol : String
  data : Option Candle
  deriving Repr, DecidableEq

/-- The scheduler's mutable bookkeeping together with the database it
writes to. -/
structure SchedulerState where
  store : Store
  last_fetch_time : Option Nat
  fetch_count : Nat
  error_count : Nat
  market_hours_only : Bool
  deriving Repr, DecidableEq

/-- Model of `StockDataFetcher.fetch_all_symbols` (data_fetcher.py lines 133-150):
one `FetchResult` per tracked symbol, produced by the fetch oracle. -/
def fetch_all_symbols (symbols : List String) (fetch : String → FetchResult) :
    List FetchResult :=
  symbols.map fetch

/-- The per-result body of `_collect_data`'s loop (scheduler.py lines
99-105): `if result.success and result.data:` save the candle, `else:`
increment the error count. -/
def collectStep (s : SchedulerState) (r : FetchResult) : SchedulerState :=
  match r.data, r.success with
  | some c, true => { s with store := (save_candle s.store c).2 }
  | _, _ => { s with error_count := s.error_count + 1 }

/-- Model of `DataScheduler._collect_data` (scheduler.py lines 79-115): gate on
market status, fetch all symbols, save each success, count each failure,
then set `last_fetch_time` and increment `fetch_count`. The fetch oracle
and the current market-open flag and wall-clock are explicit inputs. -/
def collect_data (s : SchedulerState) (isOpen : Bool)
    (fetch : String → FetchResult) (symbols : List String) (now : Nat) :
    SchedulerState :=
  if s.market_hours_only ∧ isOpen = false then s
  else
    let results := fetch_all_symbols symbols fetch
    let s' := results.foldl collectStep s
    { s' with last_fetch_time := some now, fetch_count := s'.fetch_count + 1 }

/-- The per-result body of `collect_now`'s loop (scheduler.py lines
151-154): saves successes; failed fetches are not counted. -/
def collectNowStep (s : SchedulerState) (r : FetchResult) : SchedulerState :=
  match r.data, r.success with
  | some c, true => { s with store := (save_candle s.store c).2 }
  | _, _ => s

/-- Model of `DataScheduler.collect_now` (scheduler.py lines 135-163): gate unless
forced, fetch all symbols, save each success, set `last_fetch_time`, and
return the fetch results. `fetch_count` and `error_count` are not
touched. -/
def collect_now (s : SchedulerState) (force : Bool) (isOpen : Bool)
    (fetch : String → FetchResult) (symbols : List String) (now : Nat) :
    List FetchResult × SchedulerState :=
  if force = false ∧ s.market_hours_only ∧ isOpen = false then ([], s)
  else
    let results := fetch_all_symbols symbols fetch
    let s' := results.foldl collectNowStep s
    (results, { s' with last_fetch_time := some now })

/-! ## Helper lemmas -/

theorem mem_sameDayRows {store : Store} {sym : String} {d : Nat} {r : Row} :
    r ∈ sameDayRows store sym d ↔ r ∈ store ∧ r.symbol = sym ∧ dayOf r.timestamp = d := by
  simp [sameDayRows, List.mem_filter]

theorem hasKey_false_of_sameDayRows_nil {store : Store} {c : Candle}
    (h : sameDayRows store c.symbol (dayOf c.timestamp) = []) :
    hasKey store c.symbol c.timestamp = false := by
  rw [hasKey]
  by_contra hcon
  rw [Bool.not_eq_false, List.any_eq_true] at hcon
  obtain ⟨r, hr, hp⟩ := hcon
  rw [decide_eq_true_eq] at hp
  have : r ∈ sameDayRows store c.symbol (dayOf c.timestamp) := by
    rw [mem_sameDayRows]
    exact ⟨hr, hp.1, by rw [hp.2]⟩
  rw [h] at this
  exact absurd this (List.not_mem_nil r)

theorem foldl_maxRow_mem (rs : List Row) (a : Row) :
    rs.foldl maxRow a = a ∨ rs.foldl maxRow a ∈ rs := by
  induction rs generalizing a with
  | nil => exact Or.inl rfl
  | cons x xs ih =>
      rcases ih (maxRow a x) with h | h
      · rw [List.foldl_cons, h, maxRow]
        split
        · exact Or.inr (List.mem_cons_self x xs)
        · exact Or.inl rfl
      · exact Or.inr (List.mem_cons_of_mem x (by rw [List.foldl_cons]; exact h))

theorem le_foldl_maxRow (rs : List Row) (a : Row) :
    a.timestamp ≤ (rs.foldl maxRow a).timestamp := by
  induction rs generalizing a with
  | nil => exact Nat.le_refl _
  | cons x xs ih =>
      rw [List.foldl_cons]
      refine Nat.le_trans ?_ (ih (maxRow a x))
      rw [maxRow]
      split
      · exact Nat.le_of_lt (by assumption)
      · exact Nat.le_refl _

theorem mem_le_foldl_maxRow (rs : List Row) (a : Row) :
    ∀ x ∈ rs, x.timestamp ≤ (rs.foldl maxRow a).timestamp := by
  induction rs generalizing a with
  | nil => intro x hx; exact absurd hx (List.not_mem_nil x)
  | cons y ys ih =>
      intro x hx
      rcases List.mem_cons.mp hx with h | h
      · subst h
        rw [List.foldl_cons]
        refine Nat.le_trans ?_ (le_foldl_maxRow ys (maxRow a x))
        rw [maxRow]
        split
        · exact Nat.le_refl _
        · exact Nat.le_of_not_lt (by assumption)
      · rw [List.foldl_cons]
        exact ih (maxRow a y) x h

theorem latestRow_mem {rs : List Row} {r : Row} (h : latestRow rs = some r) :
    r ∈ rs := by
  cases rs with
  | nil => simp [latestRow] at h
  | cons x xs =>
      rw [latestRow, Option.some.injEq] at h
      rcases foldl_maxRow_mem xs x with h' | h'
      · rw [h'] at h; rw [← h]; exact List.mem_cons_self x xs
      · rw [← h]; exact List.mem_cons_of_mem x h'

theorem latestRow_maximal {rs : List Row} {r : Row} (h : latestRow rs = some r) :
    ∀ x ∈ rs, x.timestamp ≤ r.timestamp := by
  cases rs with
  | nil => simp [latestRow] at h
  | cons y ys =>
      rw [latestRow, Option.some.injEq] at h
      intro x hx
      rcases List.mem_cons.mp hx with h' | h'
      · subst h'; rw [← h]; exact le_foldl_maxRow ys x
      · rw [← h]; exact mem_le_foldl_maxRow ys y x h'

theorem foldl_maxRow_append_gt (l : List Row) (a r : Row)
    (ha : a.timestamp < r.timestamp)
    (hl : ∀ x ∈ l, x.timestamp < r.timestamp) :
    (l ++ [r]).foldl maxRow a = r := by
  induction l generalizing a with
  | nil =>
      rw [List.nil_append, List.foldl_cons, List.foldl_nil, maxRow, if_pos ha]
  | cons x xs ih =>
      rw [List.cons_append, List.foldl_cons]
      refine ih (maxRow a x) ?_ (fun y hy => hl y (List.mem_cons_of_mem x hy))
      rw [maxRow]
      split
      · exact hl x (List.mem_cons_self x xs)
      · exact ha

theorem latestRow_append_gt (l : List Row) (r : Row)
    (hl : ∀ x ∈ l, x.timestamp < r.timestamp) :
    latestRow (l ++ [r]) = some r := by
  cases l with
  | nil => rfl
  | cons x xs =>
      rw [List.cons_append, latestRow, Option.some.injEq]
      exact foldl_maxRow_append_gt xs x r (hl x (List.mem_cons_self x xs))
        (fun y hy => hl y (List.mem_cons_of_mem x hy))

/-- Evaluation of `_calculate_net_mf` on a day with no prior rows: sign from close vs
open. -/
theorem calculate_net_mf_first (store : Store) (c : Candle)
    (avg mf : ℤ) (h : sameDayRows store c.symbol (dayOf c.timestamp) = []) :
    calculate_net_mf store c avg mf =
      if c.close_price < c.open_price then -mf else mf := by
  rw [calculate_net_mf, h]
  simp

/-- Evaluation of `_calculate_net_mf` when the day already has rows: chains off the
same-day row returned by `ORDER BY timestamp DESC LIMIT 1`. -/
theorem calculate_net_mf_subsequent (store : Store) (c : Candle)
    (avg mf : ℤ) (prev : Row)
    (h : latestRow (sameDayRows store c.symbol (dayOf c.timestamp)) = some prev) :
    calculate_net_mf store c avg mf =
      if avg > prev.avg_price then mf + prev.net_mf
      else if avg < prev.avg_price then -mf + prev.net_mf
      else if prev.net_mf ≥ 0 then mf + prev.net_mf
      else -mf + prev.net_mf := by
  have hne : sameDayRows store c.symbol (dayOf c.timestamp) ≠ [] := by
    intro hnil
    rw [hnil] at h
    simp [latestRow] at h
  rw [calculate_net_mf]
  rw [if_neg (by simpa [List.length_eq_zero] using hne), h]

/-- Holds exactly for results the `_collect_data` loop counts as
failures: `not (result.success and result.data)`. -/
def isFailure (r : FetchResult) : Bool :=
  match r.data, r.success with
  | some _, true => false
  | _, _ => true

theorem foldl_collectStep_error_count (rs : List FetchResult) (s : SchedulerState) :
    (rs.foldl collectStep s).error_count
      = s.error_count + (rs.filter isFailure).length := by
  induction rs generalizing s with
  | nil => rfl
  | cons r rs ih =>
      rw [List.foldl_cons, ih (collectStep s r)]
      rcases r with ⟨success, sym, data⟩
      cases data <;> cases success <;>
        simp [collectStep, isFailure, List.filter, Nat.add_comm, Nat.add_assoc,
          Nat.add_left_comm]

theorem foldl_collectStep_fetch_count (rs : List FetchResult) (s : SchedulerState) :
    (rs.foldl collectStep s).fetch_count = s.fetch_count := by
  induction rs generalizing s with
  | nil => rfl
  | cons r rs ih =>
      rw [List.foldl_cons, ih (collectStep s r)]
      rcases r with ⟨success, sym, data⟩
      cases data <;> cases success <;> simp [collectStep]

theorem foldl_collectNowStep_counts (rs : List FetchResult) (s : SchedulerState) :
    (rs.foldl collectNowStep s).error_count = s.error_count ∧
    (rs.foldl collectNowStep s).fetch_count = s.fetch_count ∧
    (rs.foldl collectNowStep s).last_fetch_time = s.last_fetch_time := by
  induction rs generalizing s with
  | nil => exact ⟨rfl, rfl, rfl⟩
  | cons r rs ih =>
      rw [List.foldl_cons]
      rcases ih (collectNowStep s r) with ⟨h1, h2, h3⟩
      rcases r with ⟨success, sym, data⟩
      cases data <;> cases success <;>
        simp_all [collectNowStep]

/-- The two per-result loop bodies update the stored table identically. -/
theorem foldl_step_store_eq (rs : List FetchResult) (s₁ s₂ : SchedulerState)
    (h : s₁.store = s₂.store) :
    (rs.foldl collectStep s₁).store = (rs.foldl collectNowStep s₂).store := by
  induction rs generalizing s₁ s₂ with
  | nil => exact h
  | cons r rs ih =>
      rw [List.foldl_cons, List.foldl_cons]
      refine ih (collectStep s₁ r) (collectNowStep s₂ r) ?_
      rcases r with ⟨success, sym, data⟩
      cases data <;> cases success <;> simp [collectStep, collectNowStep, h]

/-! ## Concrete fixtures for witnesses (the NMF example of the spec:
open=100, close=98, high=101, low=97, volume=2,000,000 gives avg=99,
money_flow=198). -/

/-- A candle on day 0 at 10:00. -/
def candleA : Candle :=
  { symbol := "RELIANCE.NS", timestamp := 600, open_price := 100,
    high_price := 101, low_price := 97, close_price := 98, volume := 2000000 }

/-- A candle for the same symbol dated the next calendar day (day 1,
10:00). -/
def candleB : Candle :=
  { symbol := "RELIANCE.NS", timestamp := 1440 + 600, open_price := 100,
    high_price := 101, low_price := 97, close_price := 98, volume := 2000000 }

/-- A stored row on day 0 with a nonzero Net MF. -/
def rowDay0 : Row :=
  { symbol := "RELIANCE.NS", timestamp := 900, open_price := 100,
    high_price := 102, low_price := 100, close_price := 101, volume := 3000,
    avg_price := 101, money_flow := 303, net_mf := 500 }

/-! ## Claims -/

/-- C1: a candle inserted for a symbol with no row yet stored for its
calendar date is written as a fresh first entry of that day, its Net MF
equal to `-money_flow` when `close < open` and `+money_flow` otherwise,
independent of any rows stored for other days. -/
theorem netmf_first_of_day (store : Store) (c : Candle)
    (h : sameDayRows store c.symbol (dayOf c.timestamp) = []) :
    save_candle store c = (true, store ++ [rowOf store c]) ∧
    (rowOf store c).net_mf =
      (if c.close_price < c.open_price then -(moneyFlowOf c) else moneyFlowOf c) := by
  have hkey : hasKey store c.symbol c.timestamp = false :=
    hasKey_false_of_sameDayRows_nil h
  constructor
  · rw [save_candle, if_neg (by rw [hkey]; exact Bool.false_ne_true)]
  · show calculate_net_mf store c (avgPriceOf c) (moneyFlowOf c) = _
    exact calculate_net_mf_first store c _ _ h

/-- C1 witness: inserting `candleB` (day 1) with only a day-0 row stored
for the same symbol is a first-of-day insert whose Net MF ignores the
day-0 row's Net MF of 500. -/
theorem netmf_first_of_day_witness :
    sameDayRows [rowDay0] candleB.symbol (dayOf candleB.timestamp) = [] ∧
    (save_candle [rowDay0] candleB = (true, [rowDay0] ++ [rowOf [rowDay0] candleB]) ∧
     (rowOf [rowDay0] candleB).net_mf =
       (if candleB.close_price < candleB.open_price
        then -(moneyFlowOf candleB) else moneyFlowOf candleB)) :=
  ⟨by decide, netmf_first_of_day [rowDay0] candleB (by decide)⟩

/-- C2: inserting a candle on a day that already has stored rows for the
symbol chains the Net MF off the most recent same-day stored row `prev`
(the same-day row of greatest timestamp): `money_flow + prev_nmf` when
`avg_price > prev_avg`, `-money_flow + prev_nmf` when `avg_price <
prev_avg`, and `(money_flow if prev_nmf ≥ 0 else -money_flow) + prev_nmf`
on a tie. -/
theorem netmf_subsequent (store : Store) (c : Candle) (prev : Row)
    (hkey : hasKey store c.symbol c.timestamp = false)
    (hprev : latestRow (sameDayRows store c.symbol (dayOf c.timestamp)) = some prev) :
    prev ∈ store ∧ prev.symbol = c.symbol ∧
    dayOf prev.timestamp = dayOf c.timestamp ∧
    (∀ r ∈ store, r.symbol = c.symbol → dayOf r.timestamp = dayOf c.timestamp →
      r.timestamp ≤ prev.timestamp) ∧
    save_candle store c = (true, store ++ [rowOf store c]) ∧
    (rowOf store c).net_mf =
      (if avgPriceOf c > prev.avg_price then moneyFlowOf c + prev.net_mf
       else if avgPriceOf c < prev.avg_price then -(moneyFlowOf c) + prev.net_mf
       else (if prev.net_mf ≥ 0 then moneyFlowOf c else -(moneyFlowOf c)) + prev.net_mf) := by
  obtain ⟨hmem, hsym, hday⟩ := mem_sameDayRows.mp (latestRow_mem hprev)
  refine ⟨hmem, hsym, hday, ?_, ?_, ?_⟩
  · intro r hr hrs hrd
    exact latestRow_maximal hprev r (mem_sameDayRows.mpr ⟨hr, hrs, hrd⟩)
  · rw [save_candle, if_neg (by rw [hkey]; exact Bool.false_ne_true)]
  · show calculate_net_mf store c (avgPriceOf c) (moneyFlowOf c) = _
    rw [calculate_net_mf_subsequent store c _ _ prev hprev]
    by_cases h1 : avgPriceOf c > prev.avg_price
    · rw [if_pos h1, if_pos h1]
    · rw [if_neg h1, if_neg h1]
      by_cases h2 : avgPriceOf c < prev.avg_price
      · rw [if_pos h2, if_pos h2]
      · rw [if_neg h2, if_neg h2]
        by_cases h3 : prev.net_mf ≥ 0
        · rw [if_pos h3, if_pos h3]
        · rw [if_neg h3, if_neg h3]

/-- A stored row on day 0 at 09:15 (the day's earliest row). -/
def rowEarly : Row :=
  { symbol := "RELIANCE.NS", timestamp := 555, open_price := 100,
    high_price := 101, low_price := 97, close_price := 98, volume := 2000,
    avg_price := 99, money_flow := 198, net_mf := 198 }

/-- A stored row on day 0 at 11:40, the same-day row of greatest
timestamp, later than `candleA`'s 10:00. -/
def rowLate : Row :=
  { symbol := "RELIANCE.NS", timestamp := 700, open_price := 101,
    high_price := 112, low_price := 108, close_price := 111, volume := 2000,
    avg_price := 110, money_flow := 220, net_mf := 418 }

/-- C2 witness: inserting `candleA` (10:00) when rows at 09:15 and 11:40
are stored; the 11:40 row is the most recent same-day row. -/
theorem netmf_subsequent_witness :
    hasKey [rowEarly, rowLate] candleA.symbol candleA.timestamp = false ∧
    (rowLate ∈ [rowEarly, rowLate] ∧ rowLate.symbol = candleA.symbol ∧
     dayOf rowLate.timestamp = dayOf candleA.timestamp ∧
     (∀ r ∈ [rowEarly, rowLate], r.symbol = candleA.symbol →
       dayOf r.timestamp = dayOf candleA.timestamp → r.timestamp ≤ rowLate.timestamp) ∧
     save_candle [rowEarly, rowLate] candleA
       = (true, [rowEarly, rowLate] ++ [rowOf [rowEarly, rowLate] candleA]) ∧
     (rowOf [rowEarly, rowLate] candleA).net_mf =
       (if avgPriceOf candleA > rowLate.avg_price
        then moneyFlowOf candleA + rowLate.net_mf
        else if avgPriceOf candleA < rowLate.avg_price
        then -(moneyFlowOf candleA) + rowLate.net_mf
        else (if rowLate.net_mf ≥ 0 then moneyFlowOf candleA
              else -(moneyFlowOf candleA)) + rowLate.net_mf)) :=
  ⟨by decide, netmf_subsequent [rowEarly, rowLate] candleA rowLate (by decide) (by decide)⟩

/-- C10: even when the candle being inserted has a timestamp earlier than
a stored same-day row (an out-of-order backfill insert), the `(prev_avg,
prev_nmf)` pair used for its Net MF is taken from the same-day stored row
of greatest timestamp — not from the latest stored row preceding the
candle's own timestamp. -/
theorem netmf_out_of_order (store : Store) (c : Candle) (prev : Row)
    (hkey : hasKey store c.symbol c.timestamp = false)
    (hprev : latestRow (sameDayRows store c.symbol (dayOf c.timestamp)) = some prev)
    (hlate : c.timestamp < prev.timestamp) :
    prev ∈ store ∧
    (∀ r ∈ store, r.symbol = c.symbol → dayOf r.timestamp = dayOf c.timestamp →
      r.timestamp ≤ prev.timestamp) ∧
    c.timestamp < prev.timestamp ∧
    (save_candle store c).2 = store ++ [rowOf store c] ∧
    (rowOf store c).net_mf =
      (if avgPriceOf c > prev.avg_price then moneyFlowOf c + prev.net_mf
       else if avgPriceOf c < prev.avg_price then -(moneyFlowOf c) + prev.net_mf
       else (if prev.net_mf ≥ 0 then moneyFlowOf c else -(moneyFlowOf c)) + prev.net_mf) := by
  obtain ⟨hmem, hsym, hday⟩ := mem_sameDayRows.mp (latestRow_mem hprev)
  refine ⟨hmem, ?_, hlate, ?_, ?_⟩
  · intro r hr hrs hrd
    exact latestRow_maximal hprev r (mem_sameDayRows.mpr ⟨hr, hrs, hrd⟩)
  · rw [save_candle, if_neg (by rw [hkey]; exact Bool.false_ne_true)]
  · show calculate_net_mf store c (avgPriceOf c) (moneyFlowOf c) = _
    rw [calculate_net_mf_subsequent store c _ _ prev hprev]
    by_cases h1 : avgPriceOf c > prev.avg_price
    · rw [if_pos h1, if_pos h1]
    · rw [if_neg h1, if_neg h1]
      by_cases h2 : avgPriceOf c < prev.avg_price
      · rw [if_pos h2, if_pos h2]
      · rw [if_neg h2, if_neg h2]
        by_cases h3 : prev.net_mf ≥ 0
        · rw [if_pos h3, if_pos h3]
        · rw [if_neg h3, if_neg h3]

/-- C10 witness: inserting `candleA` (10:00) when the day's rows are at
09:15 and 11:40; the Net MF chains off the 11:40 row although it is later
than 10:00. -/
theorem netmf_out_of_order_witness :
    hasKey [rowEarly, rowLate] candleA.symbol candleA.timestamp = false ∧
    candleA.timestamp < rowLate.timestamp ∧
    (rowLate ∈ [rowEarly, rowLate] ∧
     (∀ r ∈ [rowEarly, rowLate], r.symbol = candleA.symbol →
       dayOf r.timestamp = dayOf candleA.timestamp → r.timestamp ≤ rowLate.timestamp) ∧
     candleA.timestamp < rowLate.timestamp ∧
     (save_candle [rowEarly, rowLate] candleA).2
       = [rowEarly, rowLate] ++ [rowOf [rowEarly, rowLate] candleA] ∧
     (rowOf [rowEarly, rowLate] candleA).net_mf =
       (if avgPriceOf candleA > rowLate.avg_price
        then moneyFlowOf candleA + rowLate.net_mf
        else if avgPriceOf candleA < rowLate.avg_price
        then -(moneyFlowOf candleA) + rowLate.net_mf
        else (if rowLate.net_mf ≥ 0 then moneyFlowOf candleA
              else -(moneyFlowOf candleA)) + rowLate.net_mf)) :=
  ⟨by decide, by decide,
   netmf_out_of_order [rowEarly, rowLate] candleA rowLate
     (by decide) (by decide) (by decide)⟩

/-- Folding `save_candle` over a sequence of candles (the state after any
sequence of inserts). -/
def insertAll (store : Store) (cs : List Candle) : Store :=
  cs.foldl (fun s c => (save_candle s c).2) store

/-- Two rows with distinct `(symbol, timestamp)` keys. -/
def distinctKeys (a b : Row) : Prop :=
  ¬(a.symbol = b.symbol ∧ a.timestamp = b.timestamp)

theorem hasKey_iff {store : Store} {sym : String} {t : Nat} :
    hasKey store sym t = true ↔ ∃ r ∈ store, r.symbol = sym ∧ r.timestamp = t := by
  simp [hasKey]

theorem hasKey_after_save (store : Store) (c : Candle) :
    hasKey (save_candle store c).2 c.symbol c.timestamp = true := by
  rw [save_candle]
  by_cases h : hasKey store c.symbol c.timestamp = true
  · rw [if_pos h]; exact h
  · rw [if_neg h]
    exact hasKey_iff.mpr ⟨rowOf store c,
      List.mem_append_right store (List.mem_singleton_self _), rfl, rfl⟩

theorem save_preserves_distinctKeys {store : Store} (c : Candle)
    (h : store.Pairwise distinctKeys) :
    (save_candle store c).2.Pairwise distinctKeys := by
  rw [save_candle]
  by_cases hk : hasKey store c.symbol c.timestamp = true
  · rw [if_pos hk]; exact h
  · rw [if_neg hk]
    rw [List.pairwise_append]
    refine ⟨h, List.pairwise_singleton _ _, ?_⟩
    intro a ha b hb
    rw [List.mem_singleton] at hb
    subst hb
    intro ⟨hs, ht⟩
    exact hk (hasKey_iff.mpr ⟨a, ha, hs, ht⟩)

theorem insertAll_distinctKeys (store : Store) (cs : List Candle)
    (h : store.Pairwise distinctKeys) :
    (insertAll store cs).Pairwise distinctKeys := by
  induction cs generalizing store with
  | nil => exact h
  | cons c cs ih =>
      exact ih (save_candle store c).2 (save_preserves_distinctKeys c h)

/-- C3: inserting a candle whose `(symbol, timestamp)` key is already
stored returns `false` and leaves the table unchanged; a repeated insert
of the same candle is a silent no-op on the state after the first; and
after any sequence of inserts starting from the empty table, no two
stored rows share a `(symbol, timestamp)` key. -/
theorem save_candle_idempotent_unique :
    (∀ store : Store, ∀ c : Candle, hasKey store c.symbol c.timestamp = true →
       save_candle store c = (false, store)) ∧
    (∀ store : Store, ∀ c : Candle,
       save_candle (save_candle store c).2 c = (false, (save_candle store c).2)) ∧
    (∀ cs : List Candle, (insertAll [] cs).Pairwise distinctKeys) := by
  have h1 : ∀ store : Store, ∀ c : Candle,
      hasKey store c.symbol c.timestamp = true → save_candle store c = (false, store) := by
    intro store c h
    rw [save_candle, if_pos h]
  exact ⟨h1,
    fun store c => h1 _ c (hasKey_after_save store c),
    fun cs => insertAll_distinctKeys [] cs (List.Pairwise.nil)⟩

/-- C3 witness: inserting `candleA` twice from the empty table; the second
insert returns `false` with the table unchanged. -/
theorem save_candle_idempotent_unique_witness :
    hasKey (save_candle [] candleA).2 candleA.symbol candleA.timestamp = true ∧
    save_candle (save_candle [] candleA).2 candleA
      = (false, (save_candle [] candleA).2) ∧
    (insertAll [] [candleA, candleA]).Pairwise distinctKeys :=
  ⟨hasKey_after_save [] candleA,
   save_candle_idempotent_unique.2.1 [] candleA,
   save_candle_idempotent_unique.2.2 [candleA, candleA]⟩

/-- Rounding to the nearest integer, as the wording of the spec's derived-
field formulas reads (half away from zero; the inputs it is applied to
below are not ties, so the tie rule is irrelevant). Used only to compare
the spec's wording with the source's computation. -/
def roundNearest (q : ℚ) : ℤ := ⌊q + 1/2⌋

/-- A candle whose average price `(high + low) / 2 = 99.7` separates
truncation from rounding to the nearest integer. -/
def candleC4 : Candle :=
  { symbol := "TCS.NS", timestamp := 555, open_price := 100,
    high_price := 1004/10, low_price := 99, close_price := 100,
    volume := 2000000 }

/-- C4 counterexample: on `candleC4` the stored `avg_price` is 99 — the
source computes `int(round((high+low)/2, 2))`, which truncates — while
rounding `(high+low)/2 = 99.7` to the nearest integer gives 100. -/
theorem avg_price_truncates_not_nearest :
    save_candle [] candleC4 = (true, [rowOf [] candleC4]) ∧
    (rowOf [] candleC4).avg_price = 99 ∧
    roundNearest ((candleC4.high_price + candleC4.low_price) / 2) = 100 ∧
    (rowOf [] candleC4).avg_price
      ≠ roundNearest ((candleC4.high_price + candleC4.low_price) / 2) := by
  have h1 : (rowOf [] candleC4).avg_price = 99 := by
    show pyInt (pyRound2 ((candleC4.high_price + candleC4.low_price) / 2)) = 99
    norm_num [pyInt, pyRound2, roundHalfEven, candleC4]
  have h2 : roundNearest ((candleC4.high_price + candleC4.low_price) / 2) = 100 := by
    norm_num [roundNearest, candleC4]
  refine ⟨rfl, h1, h2, ?_⟩
  rw [h1, h2]
  decide

/-- C4 (amended): `insert(c)` derives the stored fields as
`scaled_volume = c.volume / 1000` (integer division, truncating),
`avg_price = int(round((high+low)/2, 2))` — round to two decimal places
(ties to even), then truncate toward zero to an integer — and
`money_flow = int(round(avg_price * scaled_volume / 1000, 2))` likewise;
the final conversions truncate rather than round to the nearest
integer. -/
theorem save_candle_derived_fields (store : Store) (c : Candle)
    (hkey : hasKey store c.symbol c.timestamp = false) :
    (save_candle store c).2 = store ++ [rowOf store c] ∧
    (rowOf store c).volume = c.volume / 1000 ∧
    (rowOf store c).avg_price
      = pyInt (pyRound2 ((c.high_price + c.low_price) / 2)) ∧
    (rowOf store c).money_flow
      = pyInt (pyRound2 ((((rowOf store c).avg_price : ℚ)
          * ((rowOf store c).volume : ℚ)) / 1000)) := by
  refine ⟨?_, rfl, rfl, rfl⟩
  rw [save_candle, if_neg (by rw [hkey]; exact Bool.false_ne_true)]

/-- C4 witness: the spec's own example (high=101, low=97,
volume=2,000,000) inserted into the empty table: scaled volume 2000,
avg price 99, money flow 198. -/
theorem save_candle_derived_fields_witness :
    hasKey [] candleA.symbol candleA.timestamp = false ∧
    ((save_candle [] candleA).2 = [] ++ [rowOf [] candleA] ∧
     (rowOf [] candleA).volume = candleA.volume / 1000 ∧
     (rowOf [] candleA).avg_price
       = pyInt (pyRound2 ((candleA.high_price + candleA.low_price) / 2)) ∧
     (rowOf [] candleA).money_flow
       = pyInt (pyRound2 ((((rowOf [] candleA).avg_price : ℚ)
           * ((rowOf [] candleA).volume : ℚ)) / 1000))) ∧
    (rowOf [] candleA).volume = 2000 ∧
    (rowOf [] candleA).avg_price = 99 ∧
    (rowOf [] candleA).money_flow = 198 :=
  ⟨by decide, save_candle_derived_fields [] candleA (by decide),
   by decide,
   by norm_num [rowOf, avgPriceOf, pyInt, pyRound2, roundHalfEven, candleA],
   by norm_num [rowOf, moneyFlowOf, avgPriceOf, scaledVol, pyInt, pyRound2,
     roundHalfEven, candleA]⟩

/-- C5: a collection cycle over `n` tracked symbols (with every
successful fetch carrying its candle, as `fetch_latest_candle` ensures)
produces one outcome per symbol attempted, increments `error_count` by
exactly the number of failed fetches, and still sets `last_fetch_time`
and increments `fetch_count` by exactly 1 regardless of how many symbol
fetches succeeded. -/
theorem collect_cycle_bookkeeping (s : SchedulerState) (isOpen : Bool)
    (fetch : String → FetchResult) (symbols : List String) (now : Nat)
    (hgate : s.market_hours_only = false ∨ isOpen = true)
    (hsucc : ∀ sym ∈ symbols,
      (fetch sym).success = true → ((fetch sym).data).isSome = true) :
    (fetch_all_symbols symbols fetch).length = symbols.length ∧
    (collect_data s isOpen fetch symbols now).error_count
      = s.error_count
        + ((fetch_all_symbols symbols fetch).filter (fun r => !r.success)).length ∧
    (collect_data s isOpen fetch symbols now).fetch_count = s.fetch_count + 1 ∧
    (collect_data s isOpen fetch symbols now).last_fetch_time = some now := by
  have hcond : ¬(s.market_hours_only ∧ isOpen = false) := by
    rcases hgate with h | h <;> simp [h]
  have hfilter : (fetch_all_symbols symbols fetch).filter isFailure
      = (fetch_all_symbols symbols fetch).filter (fun r => !r.success) := by
    refine List.filter_congr ?_
    intro r hr
    rw [fetch_all_symbols] at hr
    obtain ⟨sym, hsym, hfr⟩ := List.mem_map.mp hr
    subst hfr
    rcases hs : (fetch sym).success with _ | _
    · rcases hd : (fetch sym).data with _ | c <;> simp [isFailure, hd, hs]
    · have hdata := hsucc sym hsym hs
      rcases hd : (fetch sym).data with _ | c
      · rw [hd] at hdata; simp at hdata
      · simp [isFailure, hd, hs]
  refine ⟨List.length_map _ _, ?_, ?_, ?_⟩
  · rw [collect_data, if_neg hcond]
    show (((fetch_all_symbols symbols fetch).foldl collectStep s).error_count) = _
    rw [foldl_collectStep_error_count, hfilter]
  · rw [collect_data, if_neg hcond]
    show (((fetch_all_symbols symbols fetch).foldl collectStep s).fetch_count) + 1 = _
    rw [foldl_collectStep_fetch_count]
  · rw [collect_data, if_neg hcond]

/-- The fetch oracle for the scheduler witnesses: fails on `TCS.NS`,
succeeds with a candle on every other symbol. -/
def fetchDemo (sym : String) : FetchResult :=
  if sym = "TCS.NS" then { success := false, symbol := sym, data := none }
  else { success := true, symbol := sym, data := some { candleA with symbol := sym } }

/-- An initial scheduler state with nonzero counters and gating off. -/
def schedState0 : SchedulerState :=
  { store := [], last_fetch_time := none, fetch_count := 3, error_count := 2,
    market_hours_only := false }

/-- C5 witness: three symbols of which the `TCS.NS` fetch fails: three
outcomes, `error_count` goes from 2 to 3, `fetch_count` from 3 to 4, and
`last_fetch_time` is set. -/
theorem collect_cycle_bookkeeping_witness :
    (schedState0.market_hours_only = false ∨ true = true) ∧
    ((fetch_all_symbols ["RELIANCE.NS", "TCS.NS", "INFY.NS"] fetchDemo).length
        = (["RELIANCE.NS", "TCS.NS", "INFY.NS"] : List String).length ∧
     (collect_data schedState0 true fetchDemo ["RELIANCE.NS", "TCS.NS", "INFY.NS"] 999).error_count
        = schedState0.error_count
          + ((fetch_all_symbols ["RELIANCE.NS", "TCS.NS", "INFY.NS"] fetchDemo).filter
              (fun r => !r.success)).length ∧
     (collect_data schedState0 true fetchDemo ["RELIANCE.NS", "TCS.NS", "INFY.NS"] 999).fetch_count
        = schedState0.fetch_count + 1 ∧
     (collect_data schedState0 true fetchDemo ["RELIANCE.NS", "TCS.NS", "INFY.NS"] 999).last_fetch_time
        = some 999) ∧
    (collect_data schedState0 true fetchDemo ["RELIANCE.NS", "TCS.NS", "INFY.NS"] 999).error_count = 3 ∧
    (collect_data schedState0 true fetchDemo ["RELIANCE.NS", "TCS.NS", "INFY.NS"] 999).fetch_count = 4 :=
  ⟨Or.inl rfl,
   collect_cycle_bookkeeping schedState0 true fetchDemo
     ["RELIANCE.NS", "TCS.NS", "INFY.NS"] 999 (Or.inl rfl) (by decide),
   by decide, by decide⟩

/-- A fetch oracle that fails on every symbol. -/
def fetchFail (sym : String) : FetchResult :=
  { success := false, symbol := sym, data := none }

/-- C6 counterexample: from the same initial state, with the market gate
passed and one symbol whose fetch fails, the forced manual path and the
timer-driven path leave different scheduler states: `_collect_data` ends
with `error_count = 3` and `fetch_count = 4`, while `collect_now` leaves
them at 2 and 3 — so the two paths do not perform the same
bookkeeping. -/
theorem collect_now_not_equivalent :
    (collect_now schedState0 true true fetchFail ["RELIANCE.NS"] 7).2
      ≠ collect_data schedState0 true fetchFail ["RELIANCE.NS"] 7 ∧
    (collect_data schedState0 true fetchFail ["RELIANCE.NS"] 7).error_count = 3 ∧
    (collect_now schedState0 true true fetchFail ["RELIANCE.NS"] 7).2.error_count = 2 ∧
    (collect_data schedState0 true fetchFail ["RELIANCE.NS"] 7).fetch_count = 4 ∧
    (collect_now schedState0 true true fetchFail ["RELIANCE.NS"] 7).2.fetch_count = 3 := by
  refine ⟨?_, by decide, by decide, by decide, by decide⟩
  intro h
  have := congrArg SchedulerState.fetch_count h
  revert this
  decide

/-- C6 (amended): when the market gate is passed, `collect_now` performs
the same per-symbol fetch-then-insert processing as the timer-driven
`_collect_data` — the stored table and `last_fetch_time` come out equal,
and the fetch results are returned one per symbol — but it does only part
of the bookkeeping: it never increments `error_count` for failed fetches
and never increments `fetch_count`, so the scheduler counters differ from
the timer-driven path whenever a fetch fails (and in `fetch_count`
always). -/
theorem collect_now_store_agreement (s : SchedulerState) (force : Bool)
    (isOpen : Bool) (fetch : String → FetchResult) (symbols : List String)
    (now : Nat) (hgate : s.market_hours_only = false ∨ isOpen = true) :
    (collect_now s force isOpen fetch symbols now).1
      = fetch_all_symbols symbols fetch ∧
    (collect_now s force isOpen fetch symbols now).2.store
      = (collect_data s isOpen fetch symbols now).store ∧
    (collect_now s force isOpen fetch symbols now).2.last_fetch_time
      = (collect_data s isOpen fetch symbols now).last_fetch_time ∧
    (collect_now s force isOpen fetch symbols now).2.error_count = s.error_count ∧
    (collect_now s force isOpen fetch symbols now).2.fetch_count = s.fetch_count := by
  have hcond : ¬(s.market_hours_only ∧ isOpen = false) := by
    rcases hgate with h | h <;> simp [h]
  have hcond' : ¬(force = false ∧ s.market_hours_only ∧ isOpen = false) := by
    intro h; exact hcond h.2
  rw [collect_now, if_neg hcond', collect_data, if_neg hcond]
  refine ⟨rfl, ?_, rfl, ?_, ?_⟩
  · exact (foldl_step_store_eq (fetch_all_symbols symbols fetch) s s rfl).symm
  · exact (foldl_collectNowStep_counts (fetch_all_symbols symbols fetch) s).1
  · exact (foldl_collectNowStep_counts (fetch_all_symbols symbols fetch) s).2.1

/-- C6 witness: two symbols, one failing fetch: the stores and
`last_fetch_time` of the two paths agree while `collect_now` leaves the
counters untouched. -/
theorem collect_now_store_agreement_witness :
    (schedState0.market_hours_only = false ∨ false = true) ∧
    ((collect_now schedState0 false false fetchDemo ["RELIANCE.NS", "TCS.NS"] 42).1
       = fetch_all_symbols ["RELIANCE.NS", "TCS.NS"] fetchDemo ∧
     (collect_now schedState0 false false fetchDemo ["RELIANCE.NS", "TCS.NS"] 42).2.store
       = (collect_data schedState0 false fetchDemo ["RELIANCE.NS", "TCS.NS"] 42).store ∧
     (collect_now schedState0 false false fetchDemo ["RELIANCE.NS", "TCS.NS"] 42).2.last_fetch_time
       = (collect_data schedState0 false fetchDemo ["RELIANCE.NS", "TCS.NS"] 42).last_fetch_time ∧
     (collect_now schedState0 false false fetchDemo ["RELIANCE.NS", "TCS.NS"] 42).2.error_count
       = schedState0.error_count ∧
     (collect_now schedState0 false false fetchDemo ["RELIANCE.NS", "TCS.NS"] 42).2.fetch_count
       = schedState0.fetch_count) :=
  ⟨Or.inl rfl,
   collect_now_store_agreement schedState0 false false fetchDemo
     ["RELIANCE.NS", "TCS.NS"] 42 (Or.inl rfl)⟩

/-- C7: for every query instant, `is_trading_day` holds exactly on
configured trading weekdays; `is_open` holds exactly on a trading day
with the time of day between open (09:15) and close (15:30) inclusive;
`next_close` is present and equal to today's close exactly when the
market is open, absent otherwise; the status always carries the query
instant and is a total function (no error conditions). Concretely: on a
non-trading weekday `is_open` is false at every time of day, and at 10:00
on a trading day it is true. -/
theorem market_status_spec (now : Nat) :
    (get_market_status now).is_trading_day = tradingDays.contains (weekdayOf now) ∧
    ((get_market_status now).is_open = true ↔
      (tradingDays.contains (weekdayOf now) = true ∧
       marketOpenTime ≤ timeOf now ∧ timeOf now ≤ marketCloseTime)) ∧
    (tradingDays.contains (weekdayOf now) = false →
      (get_market_status now).is_open = false) ∧
    ((get_market_status now).next_close
      = if (get_market_status now).is_open
        then some (dayOf now * 1440 + marketCloseTime) else none) ∧
    ((get_market_status now).next_close ≠ none ↔
      (get_market_status now).is_open = true) ∧
    (get_market_status now).current_time = now ∧
    (∀ tod : Fin 1440, (get_market_status (5 * 1440 + tod.val)).is_open = false) ∧
    (get_market_status 600).is_open = true := by
  have hopen : ∀ n : Nat, (get_market_status n).is_open
      = (tradingDays.contains (weekdayOf n)
         && (decide (marketOpenTime ≤ timeOf n)
             && decide (timeOf n ≤ marketCloseTime))) := by
    intro n
    rw [get_market_status]
    show (_ && _ && _ : Bool) = _
    rw [Bool.and_assoc]
  refine ⟨rfl, ?_, ?_, ?_, ?_, rfl, ?_, by decide⟩
  · rw [hopen]
    simp [Bool.and_eq_true, decide_eq_true_eq]
  · intro h
    rw [hopen, h, Bool.false_and]
  · rfl
  · rw [get_market_status]
    by_cases h : ((tradingDays.contains (weekdayOf now)
        && decide (marketOpenTime ≤ timeOf now))
        && decide (timeOf now ≤ marketCloseTime)) = true
    · simp only [h]
      simp
    · rw [Bool.not_eq_true] at h
      simp only [h]
      simp
  · intro tod
    have hday : dayOf (5 * 1440 + tod.val) = 5 := by
      have := tod.isLt
      rw [dayOf]
      omega
    rw [hopen, weekdayOf, hday]
    have hc : tradingDays.contains (5 % 7) = false := rfl
    rw [hc, Bool.false_and]

/-- C7 witness: instantiation at a concrete trading-day instant (day 0,
10:00). -/
theorem market_status_spec_witness :
    (get_market_status 600).is_trading_day
      = tradingDays.contains (weekdayOf 600) ∧
    ((get_market_status 600).is_open = true ↔
      (tradingDays.contains (weekdayOf 600) = true ∧
       marketOpenTime ≤ timeOf 600 ∧ timeOf 600 ≤ marketCloseTime)) ∧
    (tradingDays.contains (weekdayOf 600) = false →
      (get_market_status 600).is_open = false) ∧
    ((get_market_status 600).next_close
      = if (get_market_status 600).is_open
        then some (dayOf 600 * 1440 + marketCloseTime) else none) ∧
    ((get_market_status 600).next_close ≠ none ↔
      (get_market_status 600).is_open = true) ∧
    (get_market_status 600).current_time = 600 ∧
    (∀ tod : Fin 1440, (get_market_status (5 * 1440 + tod.val)).is_open = false) ∧
    (get_market_status 600).is_open = true :=
  market_status_spec 600

/-- A candle whose volume (2000) differs from its stored scaled volume
(2). -/
def candleC8 : Candle :=
  { symbol := "INFY.NS", timestamp := 555, open_price := 100,
    high_price := 101, low_price := 97, close_price := 98, volume := 2000 }

/-- C8 counterexample: after inserting `candleC8` (volume 2000) into the
empty table, the latest stored sample for its symbol reports volume 2 —
`save_candle` persists the volume already divided by 1000 — so the stored
sample does not preserve the inserted candle's volume field. -/
theorem roundtrip_loses_volume :
    save_candle [] candleC8 = (true, [rowOf [] candleC8]) ∧
    (get_latest_candle (save_candle [] candleC8).2 candleC8.symbol).map Row.volume
      = some 2 ∧
    candleC8.volume = 2000 ∧
    (get_latest_candle (save_candle [] candleC8).2 candleC8.symbol).map Row.volume
      ≠ some candleC8.volume := by
  have h2 : (get_latest_candle (save_candle [] candleC8).2 candleC8.symbol).map
      Row.volume = some 2 := rfl
  refine ⟨rfl, h2, rfl, ?_⟩
  rw [h2]
  decide

/-- C8 (amended): a candle newly written by `insert(c)` and not
superseded by a later-timestamped same-symbol row is returned by
`latest(c.symbol)` with its symbol, timestamp, open, high, low and close
preserved; the volume field, however, comes back as `c.volume / 1000`
(the scaled volume stored by `save_candle`), not as `c.volume`. -/
theorem roundtrip_preserves_candle_fields (store : Store) (c : Candle)
    (hkey : hasKey store c.symbol c.timestamp = false)
    (hmax : ∀ r ∈ store, r.symbol = c.symbol → r.timestamp < c.timestamp) :
    get_latest_candle (save_candle store c).2 c.symbol = some (rowOf store c) ∧
    (rowOf store c).symbol = c.symbol ∧
    (rowOf store c).timestamp = c.timestamp ∧
    (rowOf store c).open_price = c.open_price ∧
    (rowOf store c).high_price = c.high_price ∧
    (rowOf store c).low_price = c.low_price ∧
    (rowOf store c).close_price = c.close_price ∧
    (rowOf store c).volume = c.volume / 1000 := by
  refine ⟨?_, rfl, rfl, rfl, rfl, rfl, rfl, rfl⟩
  rw [save_candle, if_neg (by rw [hkey]; exact Bool.false_ne_true)]
  rw [get_latest_candle, List.filter_append]
  have hnewsym : ((([rowOf store c] : List Row)).filter
      (fun r => decide (r.symbol = c.symbol))) = [rowOf store c] := by
    simp [rowOf]
  rw [hnewsym]
  refine latestRow_append_gt _ _ ?_
  intro x hx
  rw [List.mem_filter, decide_eq_true_eq] at hx
  exact hmax x hx.1 hx.2

/-- C8 witness: inserting `candleA` when an earlier same-day row is
stored; `latest` returns the new row with the candle's fields and the
scaled volume 2000. -/
theorem roundtrip_preserves_candle_fields_witness :
    hasKey [rowEarly] candleA.symbol candleA.timestamp = false ∧
    (get_latest_candle (save_candle [rowEarly] candleA).2 candleA.symbol
       = some (rowOf [rowEarly] candleA) ∧
     (rowOf [rowEarly] candleA).symbol = candleA.symbol ∧
     (rowOf [rowEarly] candleA).timestamp = candleA.timestamp ∧
     (rowOf [rowEarly] candleA).open_price = candleA.open_price ∧
     (rowOf [rowEarly] candleA).high_price = candleA.high_price ∧
     (rowOf [rowEarly] candleA).low_price = candleA.low_price ∧
     (rowOf [rowEarly] candleA).close_price = candleA.close_price ∧
     (rowOf [rowEarly] candleA).volume = candleA.volume / 1000) :=
  ⟨by decide,
   roundtrip_preserves_candle_fields [rowEarly] candleA (by decide) (by decide)⟩

/-- C9: `cleanup_old_data` hard-deletes exactly the stored samples with
timestamp strictly before the cutoff, returns the number deleted, and
leaves the samples at or after the cutoff unchanged (the remainder is a
sublist of the original table, and membership is preserved exactly for
rows at or after the cutoff). -/
theorem purge_older_than_spec (store : Store) (cutoff : Nat) :
    (cleanup_old_data store cutoff).1
      = (store.filter (fun r => r.timestamp < cutoff)).length ∧
    (cleanup_old_data store cutoff).1 + (cleanup_old_data store cutoff).2.length
      = store.length ∧
    (cleanup_old_data store cutoff).2.Sublist store ∧
    (∀ r : Row, r ∈ (cleanup_old_data store cutoff).2
      ↔ r ∈ store ∧ cutoff ≤ r.timestamp) := by
  refine ⟨rfl, ?_, List.filter_sublist store, ?_⟩
  · show (store.filter (fun r => r.timestamp < cutoff)).length
        + (store.filter (fun r => ¬ r.timestamp < cutoff)).length = store.length
    induction store with
    | nil => rfl
    | cons r rs ih =>
        simp only [List.filter_cons]
        by_cases h : r.timestamp < cutoff
        · rw [if_pos (by simp [h]), if_neg (by simp [h])]
          simp only [List.length_cons]
          omega
        · rw [if_neg (by simp [h]), if_pos (by simp [h])]
          simp only [List.length_cons]
          omega
  · intro r
    rw [cleanup_old_data]
    simp [List.mem_filter, Nat.not_lt]

/-- C9 witness: two stored rows (timestamps 555 and 900) purged at cutoff
600: one row deleted, the 900 row untouched. -/
theorem purge_older_than_spec_witness :
    ((cleanup_old_data [rowEarly, rowDay0] 600).1
       = ([rowEarly, rowDay0].filter (fun r : Row => r.timestamp < 600)).length ∧
     (cleanup_old_data [rowEarly, rowDay0] 600).1
       + (cleanup_old_data [rowEarly, rowDay0] 600).2.length
       = ([rowEarly, rowDay0] : List Row).length ∧
     (cleanup_old_data [rowEarly, rowDay0] 600).2.Sublist [rowEarly, rowDay0] ∧
     (∀ r : Row, r ∈ (cleanup_old_data [rowEarly, rowDay0] 600).2
       ↔ r ∈ [rowEarly, rowDay0] ∧ 600 ≤ r.timestamp)) ∧
    (cleanup_old_data [rowEarly, rowDay0] 600).1 = 1 ∧
    (cleanup_old_data [rowEarly, rowDay0] 600).2 = [rowDay0] :=
  ⟨purge_older_than_spec [rowEarly, rowDay0] 600, by decide, by decide⟩

end StockTracker
